import Mathlib

/-
Verification of the stealth transfer instruction builders
(stealth/program/src/instruction.rs) against their specification.

Shallow embedding conventions:
- byte strings are lists of naturals (each meant to be < 256);
- curve25519 scalars are naturals; a dalek scalar produced by arithmetic is
  reduced modulo the group order, while a scalar read raw from proof bytes
  may be unreduced;
- public keys are naturals (their value is immaterial to the claims);
- fallible Rust functions become Except / Option valued Lean functions.
-/

namespace Stealth

/-- Byte strings. -/
abbrev Bytes := List Nat

/-- The order of the prime-order subgroup of curve25519 (the scalar field
modulus of the dalek scalar type). -/
def ell : Nat := 2 ^ 252 + 27742317777372105625300057278593887

/-- Negation as performed by the dalek scalar type: the result is always
reduced modulo the group order, even when the input is unreduced. -/
def negm (x : Nat) : Nat := (ell - x % ell) % ell

/-- OScalar.from_canonical_bytes: succeeds exactly when the 32-byte value is
already reduced below the group order. -/
def canon (x : Nat) : Option Nat := if x < ell then some x else none

/-- Little-endian value of a byte string. -/
def leVal (b : Bytes) : Nat := b.foldr (fun x acc => acc * 256 + x) 0

/-- collect::<Option<Vec<_>>>() over an iterator of options: all-or-nothing. -/
def collectOption {α β : Type} (f : α → Option β) : List α → Option (List β)
  | [] => some []
  | a :: l =>
    match f a, collectOption f l with
    | some b, some bs => some (b :: bs)
    | _, _ => none

/-- The two transfer public keys (pod 32-byte values, kept abstract). -/
structure TransferPublicKeys where
  src_pubkey : Bytes
  dst_pubkey : Bytes
  deriving DecidableEq

/-- TransferData: a submitted proof plus masking factors for one transfer.
Field layout follows the accesses visible in instruction.rs: the equality
proof pod bytes, the two public keys, and two 64-byte ElGamal ciphertexts. -/
structure TransferData where
  equality_proof : Bytes
  transfer_public_keys : TransferPublicKeys
  src_cipher_key_chunk_ct : Bytes
  dst_cipher_key_chunk_ct : Bytes
  deriving DecidableEq

/-- A parsed equality proof: three commitment points and two response
scalars. The scalars are kept as raw little-endian values, possibly
unreduced. -/
structure EqualityProof where
  Y_0 : Bytes
  Y_1 : Bytes
  Y_2 : Bytes
  sh_1 : Nat
  rh_2 : Nat
  deriving DecidableEq

/-- Modelled from the spec: EqualityProof::from_bytes lives in
equality_proof.rs, which is not under src/. The spec describes the proof as
three commitment points and two response scalars, immutable once parsed,
with a MalformedProof error when the bytes do not parse; scalar
canonicalization is deferred to the statement builder (spec section 4.2). -/
def EqualityProof.from_bytes (b : Bytes) : Option EqualityProof :=
  if b.length = 160 then
    some { Y_0 := b.take 32
           Y_1 := (b.drop 32).take 32
           Y_2 := (b.drop 64).take 32
           sh_1 := leVal ((b.drop 96).take 32)
           rh_2 := leVal ((b.drop 128).take 32) }
  else none

/-- A Fiat-Shamir transcript: the ordered list of labeled absorbed values. -/
abbrev Transcript := List (String × Bytes)

/-- Modelled from the spec: the labeled hash-to-scalar step of the transcript
(transcript.rs is not under src/). The concrete hash is irrelevant to the
claims; any fixed computable function reduced below the group order works. -/
def challengeScalar (t : Transcript) (label : String) : Nat :=
  (t.foldl
    (fun acc lv => lv.2.foldl (fun a b => (a * 257 + b + 1) % ell) acc)
    (7 + label.length)) % ell

/-- Modelled from the spec: TransferProof::transcript_new creates the fresh
transcript for one verification attempt (transfer_proof.rs not under src/). -/
def TransferProof.transcript_new : Transcript := [("transfer-proof", [])]

/-- Modelled from the spec: TransferProof::build_transcript absorbs, in fixed
order, the source ciphertext chunk, the destination ciphertext chunk, and
the two transfer public keys (spec section 4.1). -/
def TransferProof.build_transcript (srcCt dstCt : Bytes)
    (keys : TransferPublicKeys) (t : Transcript) : Transcript :=
  t ++ [("src-ct", srcCt), ("dst-ct", dstCt),
        ("src-pk", keys.src_pubkey), ("dst-pk", keys.dst_pubkey)]

/-- Modelled from the spec: EqualityProof::build_transcript absorbs the three
commitment points of the proof, in order (spec section 4.1). -/
def EqualityProof.build_transcript (pf : EqualityProof) (t : Transcript) :
    Transcript :=
  t ++ [("Y_0", pf.Y_0), ("Y_1", pf.Y_1), ("Y_2", pf.Y_2)]

/-- Modelled from the spec: equality_proof::COMPRESSED_H, the fixed compressed
second generator; its value lives outside src/ and is immaterial here. -/
def COMPRESSED_H : Bytes := List.replicate 32 1

/-- First sub-statement of the verified relation: correctness of the source
public key (rows 1-3 of the points array in transfer_chunk_slow_proof). -/
def pubkeySrcStatement (transfer : TransferData) (pf : EqualityProof) :
    List Bytes :=
  [transfer.transfer_public_keys.src_pubkey, COMPRESSED_H, pf.Y_0]

/-- Second sub-statement: correctness of the destination public key
(rows 4-6 of the points array). -/
def pubkeyDstStatement (transfer : TransferData) (pf : EqualityProof) :
    List Bytes :=
  [transfer.transfer_public_keys.dst_pubkey,
   transfer.dst_cipher_key_chunk_ct.drop 32, pf.Y_1]

/-- Third sub-statement: equality of the two ciphertexts (rows 7-11 of the
points array). -/
def ctEqualityStatement (transfer : TransferData) (pf : EqualityProof) :
    List Bytes :=
  [transfer.dst_cipher_key_chunk_ct.take 32,
   transfer.src_cipher_key_chunk_ct.take 32,
   transfer.src_cipher_key_chunk_ct.drop 32,
   COMPRESSED_H, pf.Y_2]

/-- The points array built by transfer_chunk_slow_proof (lines 619-634). -/
def statementPoints (transfer : TransferData) (pf : EqualityProof) :
    List Bytes :=
  [transfer.transfer_public_keys.src_pubkey,
   COMPRESSED_H,
   pf.Y_0,
   transfer.transfer_public_keys.dst_pubkey,
   transfer.dst_cipher_key_chunk_ct.drop 32,
   pf.Y_1,
   transfer.dst_cipher_key_chunk_ct.take 32,
   transfer.src_cipher_key_chunk_ct.take 32,
   transfer.src_cipher_key_chunk_ct.drop 32,
   COMPRESSED_H,
   pf.Y_2]

/-- The scalar vector built by transfer_chunk_slow_proof (lines 653-667),
before canonicalization, as raw little-endian values. Entries produced by
dalek arithmetic (negations, the challenge) are reduced; the raw response
scalars sh_1 and rh_2 appear unreduced. -/
def rawScalars (pf : EqualityProof) (c : Nat) : List Nat :=
  [pf.sh_1, negm c, negm 1,
   pf.rh_2, negm c, negm 1,
   c, negm c, pf.sh_1, negm pf.rh_2, negm 1]

/-- The transcript state just before challenge derivation, following the call
order in transfer_chunk_slow_proof (lines 636-647). -/
def transcriptOf (transfer : TransferData) (pf : EqualityProof) : Transcript :=
  EqualityProof.build_transcript pf
    (TransferProof.build_transcript
      transfer.src_cipher_key_chunk_ct
      transfer.dst_cipher_key_chunk_ct
      transfer.transfer_public_keys
      TransferProof.transcript_new)

/-- The challenge scalar derived at line 649 with label c. -/
def challengeOf (transfer : TransferData) (pf : EqualityProof) : Nat :=
  challengeScalar (transcriptOf transfer pf) "c"

/-- Buffer kinds of the dalek on-chain program (curve25519_dalek_onchain,
an external crate; only the constructors referenced here are modelled). -/
inductive DalekKey
  | instructionBufferV1
  | inputBufferV1
  | computeBufferV1
  deriving DecidableEq

/-- The instructions emitted by the builders in instruction.rs, as abstract
descriptions carrying exactly the arguments the source passes. Account
addresses are naturals. -/
inductive Instr
  | createAccount (dest lamports space owner : Nat)
  | initializeBuffer (buffer authority : Nat) (kind : DalekKey) (refs : List Nat)
  | writeBytes (buffer authority offset : Nat) (finalized : Bool) (bytes : Bytes)
  | writeInputBuffer (buffer authority : Nat) (points : List Bytes) (scalars : List Nat)
  | computeBudgetRequest (units : Nat)
  | noop (tag : Nat)
  | crank (instructionBuffer inputBuffer computeBuffer : Nat)
  deriving DecidableEq

/-- One transaction group: instructions plus required signer pubkeys
(mirrors InstructionsAndSignerPubkeys in instruction.rs). -/
structure InstructionsAndSignerPubkeys where
  instructions : List Instr
  signers : List Nat
  deriving DecidableEq

/-- Program id of the external dalek crate (value immaterial). -/
def dalekProgramId : Nat := 0

/-- Context for transfer_chunk_slow_proof: external-crate size constants,
the rent callback, and the involved account addresses. HEADER_SIZE and
TABLE_SIZE are constants of the external curve25519_dalek_onchain crate and
are kept as parameters. -/
structure Ctx where
  headerSize : Nat
  tableSize : Nat
  rent : Nat → Nat
  payer : Nat
  instructionBuffer : Nat
  inputBuffer : Nat
  computeBuffer : Nat

/-- Modelled from the spec: equality_proof::DSL_INSTRUCTION_COUNT is declared
in equality_proof.rs, which is not under src/. The spec states that the
batching plan 5x16 + 1x22 + 2x(5x11+9) + 8x8 partitions the declared count
exactly, fixing its value at 294. -/
def DSL_INSTRUCTION_COUNT : Nat := 294

/-- The batch sizes issued by the crank loops of transfer_chunk_slow_proof
(lines 752-778), in order. -/
def batchCounts : List Nat :=
  List.replicate 5 (8 * 2) ++ [8 + 11 + 3]
    ++ (List.replicate 2 (List.replicate 5 11 ++ [9])).flatten
    ++ List.replicate 8 8

/-- The add_crank_batch closure (lines 738-750): state is (current,
crank_transactions, emitted groups). Each batch is prefixed by an explicit
compute budget request and a tagged noop, followed by count crank copies. -/
def addCrankBatch (ctx : Ctx)
    (st : Nat × Nat × List InstructionsAndSignerPubkeys) (count : Nat) :
    Nat × Nat × List InstructionsAndSignerPubkeys :=
  (st.1 + count, st.2.1 + 1,
   st.2.2 ++ [⟨Instr.computeBudgetRequest 1000000 :: Instr.noop st.2.1 ::
        List.replicate count
          (Instr.crank ctx.instructionBuffer ctx.inputBuffer ctx.computeBuffer),
      [ctx.payer]⟩])

/-- The final (current, crank_transactions, groups) state after all crank
loops have run. -/
def crankState (ctx : Ctx) : Nat × Nat × List InstructionsAndSignerPubkeys :=
  batchCounts.foldl (addCrankBatch ctx) (0, 0, [])

/-- The compute-budget units requested for a crank batch of the given
operation count: the source requests a constant 1,000,000 units for every
batch (line 740). -/
def requestUnitsFor : Nat → Nat := fun _count => 1000000

/-- transfer_chunk_slow_proof (lines 599-783): parses the equality proof,
builds the statement points, derives the Fiat-Shamir challenge, derives and
canonicalizes the eleven statement scalars, and on success emits the buffer
setup group, the input-write group, and the 26 crank batches. The two
assert_eq calls at lines 673 and 780-781 are modelled as guards whose
failure yields an error. -/
def transfer_chunk_slow_proof (ctx : Ctx) (transfer : TransferData) :
    Except String (List InstructionsAndSignerPubkeys) :=
  match EqualityProof.from_bytes transfer.equality_proof with
  | none => .error "malformed equality proof"
  | some equality_proof =>
    let points := statementPoints transfer equality_proof
    let challenge_c := challengeOf transfer equality_proof
    match collectOption canon (rawScalars equality_proof challenge_c) with
    | none => .error "failed to canonicalise equality proof scalars"
    | some scalars =>
      if points.length = scalars.length then
        let input_buffer_len := ctx.headerSize + points.length * 32 * 2 + 128
        let compute_buffer_len :=
          ctx.headerSize + 3 * 32 * 4 + 32 * 12 + 32 * scalars.length
            + ctx.tableSize * points.length
        let setup : InstructionsAndSignerPubkeys :=
          ⟨[Instr.createAccount ctx.inputBuffer (ctx.rent input_buffer_len)
              input_buffer_len dalekProgramId,
            Instr.createAccount ctx.computeBuffer (ctx.rent compute_buffer_len)
              compute_buffer_len dalekProgramId,
            Instr.initializeBuffer ctx.inputBuffer ctx.payer
              DalekKey.inputBufferV1 [],
            Instr.initializeBuffer ctx.computeBuffer ctx.payer
              DalekKey.computeBufferV1 [ctx.instructionBuffer, ctx.inputBuffer]],
           [ctx.payer, ctx.inputBuffer, ctx.computeBuffer]⟩
        let writeInput : InstructionsAndSignerPubkeys :=
          ⟨[Instr.writeInputBuffer ctx.inputBuffer ctx.payer points scalars],
           [ctx.payer]⟩
        let st := crankState ctx
        if st.1 = DSL_INSTRUCTION_COUNT ∧ st.2.1 = 26 then
          .ok (setup :: writeInput :: st.2.2)
        else .error "crank plan mismatch"
      else .error "statement length mismatch"

/-- Detects a crank instruction. -/
def isCrank : Instr → Bool
  | Instr.crank _ _ _ => true
  | _ => false

/-- The full instruction stream contained in a builder result; an error
result contains no instructions. -/
def emittedInstructions
    (r : Except String (List InstructionsAndSignerPubkeys)) : List Instr :=
  match r with
  | .ok gs => (gs.map InstructionsAndSignerPubkeys.instructions).flatten
  | .error _ => []

/-- Detects an instruction that creates an account or initializes a buffer. -/
def isAllocating : Instr → Bool
  | Instr.createAccount _ _ _ _ => true
  | Instr.initializeBuffer _ _ _ _ => true
  | _ => false

/-- The chunked write loop of populate_transfer_proof_dsl (lines 559-583):
starting at dsl index dslIdx, each iteration emits one write_bytes group of
at most 800 bytes at offset headerSize + dslIdx; the chunk that reaches the
end of the byte string is marked finalized and ends the loop. -/
def writeLoop (headerSize payer ibuf : Nat) (dsl : Bytes) (dslIdx : Nat) :
    List InstructionsAndSignerPubkeys :=
  if h : min (dslIdx + 800) dsl.length = dsl.length then
    [⟨[Instr.writeBytes ibuf payer (headerSize + dslIdx) true
        ((dsl.drop dslIdx).take (dsl.length - dslIdx))], [payer]⟩]
  else
    ⟨[Instr.writeBytes ibuf payer (headerSize + dslIdx) false
        ((dsl.drop dslIdx).take 800)], [payer]⟩
      :: writeLoop headerSize payer ibuf dsl (dslIdx + 800)
termination_by dsl.length - dslIdx
decreasing_by
  simp only [Nat.min_def] at h
  split at h <;> omega

/-- populate_transfer_proof_dsl (lines 525-586), generalized over the DSL
byte string (equality_proof::DSL_INSTRUCTION_BYTES is declared outside
src/): one setup group creating and initializing the instruction buffer,
followed by the chunked writes. -/
def populate_transfer_proof_dsl (headerSize : Nat) (rent : Nat → Nat)
    (payer ibuf : Nat) (dsl : Bytes) : List InstructionsAndSignerPubkeys :=
  ⟨[Instr.createAccount ibuf (rent (headerSize + dsl.length))
      (headerSize + dsl.length) dalekProgramId,
    Instr.initializeBuffer ibuf payer DalekKey.instructionBufferV1 []],
   [payer, ibuf]⟩
    :: writeLoop headerSize payer ibuf dsl 0

/-- The (offset, finalized, bytes) triples of all write_bytes instructions in
a list of groups, in emission order. -/
def writesOf (gs : List InstructionsAndSignerPubkeys) :
    List (Nat × Bool × Bytes) :=
  (gs.map InstructionsAndSignerPubkeys.instructions).flatten.filterMap
    (fun i => match i with
      | Instr.writeBytes _ _ off fin bytes => some (off, fin, bytes)
      | _ => none)

/-- A byte store as a total map from offsets to bytes. -/
abbrev Store := Nat → Nat

/-- The effect of one buffer write of bytes at a given offset. -/
def applyWrite (store : Store) (off : Nat) (bytes : Bytes) : Store :=
  fun i => if off ≤ i ∧ i < off + bytes.length then bytes.getD (i - off) 0
           else store i

/-- The effect of a sequence of writes, applied in order. -/
def applyWrites (store : Store) (ws : List (Nat × Bytes)) : Store :=
  ws.foldl (fun s w => applyWrite s w.1 w.2) store

/-- Errors of the stealth program that the claims mention. -/
inductive StealthError
  | NotReady
  deriving DecidableEq

/-- The persisted state FiniTransfer touches: the compute buffer cursor and
total step count, the transfer buffer contents, and the protected
metadata. -/
structure SystemState where
  cursor : Nat
  totalSteps : Nat
  transferBuffer : Bytes
  metadata : Bytes
  deriving DecidableEq

/-- Modelled from the spec: the FiniTransfer processor is not under src/
(only the StealthInstruction::FiniTransfer declaration is, lines 118-133).
Per spec sections 3 and 4.4, finalization is permitted only when the compute
buffer cursor equals the total step count; otherwise it fails with NotReady
and all persisted state is returned unchanged. On success it atomically
writes the staged key material into the metadata and closes the transfer
buffer. -/
def finiTransferRun (st : SystemState) : SystemState × Option StealthError :=
  if st.cursor = st.totalSteps then
    ({ st with metadata := st.transferBuffer, transferBuffer := [] }, none)
  else
    (st, some StealthError.NotReady)

/-- The instruction-type tags (StealthInstruction, lines 64-195), with the
discriminants assigned by repr u8 in declaration order. -/
inductive StealthInstruction
  | ConfigureMetadata
  | InitTransfer
  | FiniTransfer
  | TransferChunk
  | TransferChunkSlow
  | PublishElgamalPubkey
  | CloseElgamalPubkey
  deriving DecidableEq

/-- ToPrimitive::to_u8 for StealthInstruction. -/
def StealthInstruction.toU8 : StealthInstruction → Nat
  | .ConfigureMetadata => 0
  | .InitTransfer => 1
  | .FiniTransfer => 2
  | .TransferChunk => 3
  | .TransferChunkSlow => 4
  | .PublishElgamalPubkey => 5
  | .CloseElgamalPubkey => 6

/-- FromPrimitive::from_u8 for StealthInstruction. -/
def StealthInstruction.fromU8 : Nat → Option StealthInstruction
  | 0 => some .ConfigureMetadata
  | 1 => some .InitTransfer
  | 2 => some .FiniTransfer
  | 3 => some .TransferChunk
  | 4 => some .TransferChunkSlow
  | 5 => some .PublishElgamalPubkey
  | 6 => some .CloseElgamalPubkey
  | _ => none

/-- The two ProgramError values returned by the decoders. -/
inductive ProgramError
  | InvalidInstructionData
  | InvalidArgument
  deriving DecidableEq

/-- decode_instruction_type (lines 197-205). -/
def decode_instruction_type (input : Bytes) :
    Except ProgramError StealthInstruction :=
  match input with
  | [] => .error ProgramError.InvalidInstructionData
  | b :: _ =>
    match StealthInstruction.fromU8 b with
    | none => .error ProgramError.InvalidInstructionData
    | some t => .ok t

/-- The bytemuck Pod contract for a payload type: a fixed byte size, a
serialization of exactly that size, and a deserialization (try_from_bytes)
that inverts it. -/
structure PodType (T : Type) where
  size : Nat
  toBytes : T → Bytes
  ofBytes : Bytes → Option T
  length_toBytes : ∀ d, (toBytes d).length = size
  ofBytes_toBytes : ∀ d, ofBytes (toBytes d) = some d

/-- decode_instruction_data (lines 207-215): requires at least one payload
byte after the tag, then reinterprets the remainder as the Pod type. -/
def decode_instruction_data {T : Type} (P : PodType T) (input : Bytes) :
    Except ProgramError T :=
  if input.length < 2 then .error ProgramError.InvalidInstructionData
  else
    match P.ofBytes (input.drop 1) with
    | none => .error ProgramError.InvalidArgument
    | some d => .ok d

/-- The program id crate::ID (value immaterial). -/
def crateId : Nat := 9

/-- An encoded instruction (program id, accounts, data bytes). -/
structure Instruction where
  program_id : Nat
  accounts : List Nat
  data : Bytes
  deriving DecidableEq

/-- encode_instruction (lines 272-284): data is the type tag byte followed
by the bytes of the Pod payload. -/
def encode_instruction {T : Type} (P : PodType T) (accounts : List Nat)
    (instruction_type : StealthInstruction) (instruction_data : T) :
    Instruction :=
  { program_id := crateId
    accounts := accounts
    data := instruction_type.toU8 :: P.toBytes instruction_data }

/- ------------------------------------------------------------------ -/
/- Helper lemmas                                                      -/
/- ------------------------------------------------------------------ -/

/-- Crank instructions repeated c times count as c cranks. -/
theorem countP_crank_replicate (c a b d : Nat) :
    (List.replicate c (Instr.crank a b d)).countP isCrank = c := by
  induction c with
  | zero => rfl
  | succ n ih => simp [List.replicate_succ, List.countP_cons, isCrank, ih]

/-- The crank count of one emitted batch group is its planned size. -/
theorem countP_crank_batch (k c a b d : Nat) :
    (Instr.computeBudgetRequest 1000000 :: Instr.noop k ::
        List.replicate c (Instr.crank a b d)).countP isCrank = c := by
  simp [List.countP_cons, isCrank, countP_crank_replicate]

/-- Folding add_crank_batch accumulates the batch sizes into current. -/
theorem foldl_addCrankBatch_current (ctx : Ctx) (counts : List Nat)
    (st : Nat × Nat × List InstructionsAndSignerPubkeys) :
    (counts.foldl (addCrankBatch ctx) st).1 = st.1 + counts.sum := by
  induction counts generalizing st with
  | nil => simp
  | cons c cs ih =>
    simp only [List.foldl_cons, ih, addCrankBatch, List.sum_cons]
    omega

/-- Folding add_crank_batch increments crank_transactions once per batch. -/
theorem foldl_addCrankBatch_transactions (ctx : Ctx) (counts : List Nat)
    (st : Nat × Nat × List InstructionsAndSignerPubkeys) :
    (counts.foldl (addCrankBatch ctx) st).2.1 = st.2.1 + counts.length := by
  induction counts generalizing st with
  | nil => simp
  | cons c cs ih =>
    simp only [List.foldl_cons, ih, addCrankBatch, List.length_cons]
    omega

/-- Folding add_crank_batch appends one group per batch, whose crank count
is the batch size. -/
theorem foldl_addCrankBatch_groups (ctx : Ctx) (counts : List Nat)
    (st : Nat × Nat × List InstructionsAndSignerPubkeys) :
    (counts.foldl (addCrankBatch ctx) st).2.2.map
        (fun g => g.instructions.countP isCrank)
      = st.2.2.map (fun g => g.instructions.countP isCrank) ++ counts := by
  induction counts generalizing st with
  | nil => simp
  | cons c cs ih =>
    simp only [List.foldl_cons, ih, addCrankBatch, List.map_append,
      List.map_cons, List.map_nil, countP_crank_batch]
    simp

/-- The planned batch sizes sum to 294. -/
theorem batchCounts_sum : batchCounts.sum = 294 := by decide

/-- There are 26 planned batches. -/
theorem batchCounts_length : batchCounts.length = 26 := by decide

/-- The total operation count accumulated by the crank loops. -/
theorem crankState_current (ctx : Ctx) :
    (crankState ctx).1 = DSL_INSTRUCTION_COUNT := by
  rw [crankState, foldl_addCrankBatch_current, batchCounts_sum]
  rfl

/-- The number of crank transactions accumulated by the crank loops. -/
theorem crankState_transactions (ctx : Ctx) : (crankState ctx).2.1 = 26 := by
  rw [crankState, foldl_addCrankBatch_transactions, batchCounts_length]

/-- The per-batch crank counts of the emitted groups are the planned batch
sizes. -/
theorem crankState_groups_counts (ctx : Ctx) :
    (crankState ctx).2.2.map (fun g => g.instructions.countP isCrank)
      = batchCounts := by
  rw [crankState, foldl_addCrankBatch_groups]
  simp

/-- The number of crank batch groups emitted. -/
theorem crankState_groups_length (ctx : Ctx) :
    (crankState ctx).2.2.length = 26 := by
  have h := congrArg List.length (crankState_groups_counts ctx)
  simpa [batchCounts_length] using h

/-- Every group appended by the crank loops starts with the explicit
compute-budget request of 1,000,000 units. -/
theorem foldl_addCrankBatch_head (ctx : Ctx) (counts : List Nat)
    (st : Nat × Nat × List InstructionsAndSignerPubkeys)
    (hst : ∀ g ∈ st.2.2,
      g.instructions.head? = some (Instr.computeBudgetRequest 1000000)) :
    ∀ g ∈ (counts.foldl (addCrankBatch ctx) st).2.2,
      g.instructions.head? = some (Instr.computeBudgetRequest 1000000) := by
  induction counts generalizing st with
  | nil => exact hst
  | cons c cs ih =>
    refine ih _ ?_
    intro g hg
    simp only [addCrankBatch, List.mem_append, List.mem_singleton] at hg
    rcases hg with hg | rfl
    · exact hst g hg
    · rfl

/-- Every crank batch group starts with the compute-budget request. -/
theorem crankState_groups_head (ctx : Ctx) :
    ∀ g ∈ (crankState ctx).2.2,
      g.instructions.head? = some (Instr.computeBudgetRequest 1000000) := by
  refine foldl_addCrankBatch_head ctx batchCounts (0, 0, []) ?_
  intro g hg
  simp at hg

/-- The setup group of a successful transfer_chunk_slow_proof run, for a
scalar list of length 11. -/
def setupGroup (ctx : Ctx) : InstructionsAndSignerPubkeys :=
  ⟨[Instr.createAccount ctx.inputBuffer (ctx.rent (ctx.headerSize + 11 * 32 * 2 + 128))
      (ctx.headerSize + 11 * 32 * 2 + 128) dalekProgramId,
    Instr.createAccount ctx.computeBuffer
      (ctx.rent (ctx.headerSize + 3 * 32 * 4 + 32 * 12 + 32 * 11 + ctx.tableSize * 11))
      (ctx.headerSize + 3 * 32 * 4 + 32 * 12 + 32 * 11 + ctx.tableSize * 11)
      dalekProgramId,
    Instr.initializeBuffer ctx.inputBuffer ctx.payer DalekKey.inputBufferV1 [],
    Instr.initializeBuffer ctx.computeBuffer ctx.payer DalekKey.computeBufferV1
      [ctx.instructionBuffer, ctx.inputBuffer]],
   [ctx.payer, ctx.inputBuffer, ctx.computeBuffer]⟩

/-- Inversion of a successful transfer_chunk_slow_proof run: the proof
parsed, all scalars canonicalized, and the result is the setup group, the
input-write group, and the crank batches. -/
theorem tcsp_ok_elim {ctx : Ctx} {transfer : TransferData}
    {gs : List InstructionsAndSignerPubkeys}
    (h : transfer_chunk_slow_proof ctx transfer = .ok gs) :
    ∃ pf scalars,
      EqualityProof.from_bytes transfer.equality_proof = some pf
      ∧ collectOption canon (rawScalars pf (challengeOf transfer pf)) = some scalars
      ∧ scalars.length = 11
      ∧ gs = setupGroup ctx
          :: ⟨[Instr.writeInputBuffer ctx.inputBuffer ctx.payer
                (statementPoints transfer pf) scalars], [ctx.payer]⟩
          :: (crankState ctx).2.2 := by
  simp only [transfer_chunk_slow_proof] at h
  split at h
  · exact absurd h (by simp)
  next pf hpf =>
    split at h
    · exact absurd h (by simp)
    next scalars hsc =>
      split at h
      case isTrue hl =>
        rw [if_pos ⟨crankState_current ctx, crankState_transactions ctx⟩] at h
        have hlen : scalars.length = 11 := by
          simpa [statementPoints] using hl.symm
        refine ⟨pf, scalars, hpf, hsc, hlen, ?_⟩
        have hgs := (Except.ok.injEq _ _).mp h
        rw [← hgs]
        simp [setupGroup, statementPoints, hlen]
      case isFalse hl => exact absurd h (by simp)

/-- If any element of the list fails, the whole collect fails. -/
theorem collectOption_eq_none {α β : Type} (f : α → Option β) (l : List α)
    (h : ∃ s ∈ l, f s = none) : collectOption f l = none := by
  induction l with
  | nil => simp at h
  | cons a l ih =>
    obtain ⟨s, hs, hnone⟩ := h
    rcases List.mem_cons.mp hs with rfl | hmem
    · cases hrec : collectOption f l <;> simp [collectOption, hnone, hrec]
    · rw [collectOption, ih ⟨s, hmem, hnone⟩]
      cases f a <;> rfl

/-- Merging two adjacent writes: writing b1 at o and then b2 right after it
changes the store exactly like one write of b1 ++ b2 at o. -/
theorem applyWrite_merge (s : Store) (o : Nat) (b1 b2 : Bytes) :
    applyWrite (applyWrite s o b1) (o + b1.length) b2
      = applyWrite s o (b1 ++ b2) := by
  funext i
  simp only [applyWrite, List.length_append]
  by_cases h1 : o ≤ i ∧ i < o + b1.length
  · rw [if_neg (by omega), if_pos h1, if_pos (by omega : o ≤ i ∧ i < o + (b1.length + b2.length))]
    rw [List.getD_append _ _ _ _ (by omega)]
  · by_cases h2 : o + b1.length ≤ i ∧ i < o + b1.length + b2.length
    · rw [if_pos h2, if_pos (by omega : o ≤ i ∧ i < o + (b1.length + b2.length))]
      rw [List.getD_append_right _ _ _ _ (by omega)]
      congr 1
      omega
    · rw [if_neg h2, if_neg h1, if_neg (by omega)]

/-- Extracting writes from a cons of groups. -/
theorem writesOf_cons (g : InstructionsAndSignerPubkeys)
    (gs : List InstructionsAndSignerPubkeys) :
    writesOf (g :: gs)
      = g.instructions.filterMap
          (fun i => match i with
            | Instr.writeBytes _ _ off fin bytes => some (off, fin, bytes)
            | _ => none)
        ++ writesOf gs := by
  simp [writesOf]

/-- The write triples emitted by the chunked write loop, starting at index
dslIdx. -/
theorem writeLoop_writes (headerSize payer ibuf : Nat) (dsl : Bytes)
    (idx : Nat) :
    writesOf (writeLoop headerSize payer ibuf dsl idx)
      = if min (idx + 800) dsl.length = dsl.length then
          [(headerSize + idx, true, (dsl.drop idx).take (dsl.length - idx))]
        else
          (headerSize + idx, false, (dsl.drop idx).take 800)
            :: writesOf (writeLoop headerSize payer ibuf dsl (idx + 800)) := by
  by_cases h : min (idx + 800) dsl.length = dsl.length
  · rw [if_pos h, writeLoop, dif_pos h, writesOf_cons]
    rfl
  · rw [if_neg h, writeLoop, dif_neg h, writesOf_cons]
    rfl

/-- The chunks of the write loop cover the remaining byte string exactly once
in order. -/
theorem writeLoop_chunks_flatten (headerSize payer ibuf : Nat) (dsl : Bytes)
    (idx : Nat) :
    ((writesOf (writeLoop headerSize payer ibuf dsl idx)).map
        (fun w => w.2.2)).flatten
      = dsl.drop idx := by
  induction idx using writeLoop.induct headerSize payer ibuf dsl with
  | case1 idx h =>
    rw [writeLoop_writes, if_pos h]
    simp only [List.map_cons, List.map_nil, List.flatten_cons, List.flatten_nil,
      List.append_nil]
    have hlen : (dsl.drop idx).length = dsl.length - idx := List.length_drop idx dsl
    rw [← hlen, List.take_length]
  | case2 idx h ih =>
    rw [writeLoop_writes, if_neg h]
    simp only [List.map_cons, List.flatten_cons, ih]
    rw [← List.drop_drop, List.take_append_drop]

/-- Applying the write-loop writes in order produces the same store as one
single write of the remaining byte string at its offset. -/
theorem writeLoop_store (headerSize payer ibuf : Nat) (dsl : Bytes)
    (idx : Nat) :
    ∀ store : Store,
      applyWrites store
          ((writesOf (writeLoop headerSize payer ibuf dsl idx)).map
            (fun w => (w.1, w.2.2)))
        = applyWrite store (headerSize + idx) (dsl.drop idx) := by
  induction idx using writeLoop.induct headerSize payer ibuf dsl with
  | case1 idx h =>
    intro store
    rw [writeLoop_writes, if_pos h]
    simp only [List.map_cons, List.map_nil, applyWrites, List.foldl_cons,
      List.foldl_nil]
    have hlen : (dsl.drop idx).length = dsl.length - idx := List.length_drop idx dsl
    rw [← hlen, List.take_length]
  | case2 idx h ih =>
    intro store
    rw [writeLoop_writes, if_neg h]
    simp only [List.map_cons, applyWrites, List.foldl_cons] at ih ⊢
    rw [ih]
    have hchunklen : ((dsl.drop idx).take 800).length = 800 := by
      simp only [List.length_take, List.length_drop]
      omega
    have hmerge := applyWrite_merge store (headerSize + idx)
      ((dsl.drop idx).take 800) (dsl.drop (idx + 800))
    rw [hchunklen] at hmerge
    rw [← Nat.add_assoc, hmerge, ← List.drop_drop, List.take_append_drop]

/-- Only the final chunk of the write loop is marked done. -/
theorem writeLoop_flags (headerSize payer ibuf : Nat) (dsl : Bytes)
    (idx : Nat) :
    (writesOf (writeLoop headerSize payer ibuf dsl idx)).map (fun w => w.2.1)
      = List.replicate
          ((writesOf (writeLoop headerSize payer ibuf dsl idx)).length - 1)
          false
        ++ [true] := by
  induction idx using writeLoop.induct headerSize payer ibuf dsl with
  | case1 idx h =>
    rw [writeLoop_writes, if_pos h]
    rfl
  | case2 idx h ih =>
    rw [writeLoop_writes, if_neg h]
    have hne : writesOf (writeLoop headerSize payer ibuf dsl (idx + 800)) ≠ [] := by
      intro hnil
      have hfl := writeLoop_chunks_flatten headerSize payer ibuf dsl (idx + 800)
      rw [hnil] at hfl
      simp only [List.map_nil, List.flatten_nil] at hfl
      have hdrop : (dsl.drop (idx + 800)).length = dsl.length - (idx + 800) :=
        List.length_drop _ _
      rw [← hfl] at hdrop
      simp only [List.length_nil] at hdrop
      omega
    obtain ⟨m, hm⟩ :
        ∃ m, (writesOf (writeLoop headerSize payer ibuf dsl (idx + 800))).length
          = m + 1 := by
      refine ⟨(writesOf (writeLoop headerSize payer ibuf dsl (idx + 800))).length - 1, ?_⟩
      have := List.length_pos.mpr hne
      omega
    simp only [List.map_cons, ih, List.length_cons, hm, Nat.add_sub_cancel]
    simp [List.replicate_succ]

/- ------------------------------------------------------------------ -/
/- Claim theorems                                                     -/
/- ------------------------------------------------------------------ -/

/-- Claim C1: every successful transfer_chunk_slow_proof run emits crank
batches partitioning the declared DSL operation count with zero remainder
as 5 batches of 16, then 1 batch of 22, then 2 groups of 5 batches of 11
plus one of 9, then 8 batches of 8; the batch operation counts sum exactly
to the declared DSL_INSTRUCTION_COUNT and exactly 26 crank batches are
emitted, both totals being guarded by the setup-time assertions. -/
theorem crank_plan_partition (ctx : Ctx) (transfer : TransferData)
    (gs : List InstructionsAndSignerPubkeys)
    (h : transfer_chunk_slow_proof ctx transfer = .ok gs) :
    (gs.drop 2).map (fun g => g.instructions.countP isCrank)
        = List.replicate 5 16 ++ [22]
            ++ (List.replicate 2 (List.replicate 5 11 ++ [9])).flatten
            ++ List.replicate 8 8
    ∧ ((gs.drop 2).map (fun g => g.instructions.countP isCrank)).sum
        = DSL_INSTRUCTION_COUNT
    ∧ (gs.drop 2).length = 26 := by
  obtain ⟨pf, scalars, hpf, hsc, hlen, hgs⟩ := tcsp_ok_elim h
  subst hgs
  simp only [List.drop_succ_cons, List.drop_zero]
  refine ⟨?_, ?_, crankState_groups_length ctx⟩
  · rw [crankState_groups_counts]
    decide
  · rw [crankState_groups_counts, batchCounts_sum]
    rfl

/-- Claim C2: whenever the equality proof parses but any one of the eleven
derived statement scalars fails to canonicalize into the scalar field,
transfer_chunk_slow_proof aborts the whole proof with an error; the
collection is all-or-nothing, so no subset of the scalars is retained or
emitted. -/
theorem scalar_canonicalization_aborts (ctx : Ctx) (transfer : TransferData)
    (pf : EqualityProof)
    (hpf : EqualityProof.from_bytes transfer.equality_proof = some pf)
    (hbad : ∃ s ∈ rawScalars pf (challengeOf transfer pf), canon s = none) :
    transfer_chunk_slow_proof ctx transfer
        = .error "failed to canonicalise equality proof scalars"
    ∧ collectOption canon (rawScalars pf (challengeOf transfer pf)) = none
    ∧ emittedInstructions (transfer_chunk_slow_proof ctx transfer) = [] := by
  have hnone : collectOption canon (rawScalars pf (challengeOf transfer pf)) = none :=
    collectOption_eq_none canon _ hbad
  have herr : transfer_chunk_slow_proof ctx transfer
      = .error "failed to canonicalise equality proof scalars" := by
    simp only [transfer_chunk_slow_proof, hpf, hnone]
  exact ⟨herr, hnone, by rw [herr]; rfl⟩

/-- Claim C3: for every parsed equality proof and pair of ciphertext chunks,
the statement builder emits exactly 11 group elements and exactly 11
scalars, with equal lengths as asserted, arranged as three sub-statements
(two public-key-correctness checks and one ciphertext-equality check); the
scalars are the fixed linear combinations
sh_1, -c, -1, rh_2, -c, -1, c, -c, sh_1, -rh_2, -1 of the response values
and the negated challenge. -/
theorem statement_builder_shape (transfer : TransferData) (pf : EqualityProof)
    (c : Nat) :
    (statementPoints transfer pf).length = 11
    ∧ (rawScalars pf c).length = 11
    ∧ (statementPoints transfer pf).length = (rawScalars pf c).length
    ∧ statementPoints transfer pf
        = pubkeySrcStatement transfer pf ++ pubkeyDstStatement transfer pf
            ++ ctEqualityStatement transfer pf
    ∧ rawScalars pf c
        = [pf.sh_1, negm c, negm 1, pf.rh_2, negm c, negm 1,
           c, negm c, pf.sh_1, negm pf.rh_2, negm 1] := by
  refine ⟨rfl, rfl, rfl, ?_, rfl⟩
  simp [statementPoints, pubkeySrcStatement, pubkeyDstStatement,
    ctEqualityStatement]

/-- Claim C4: every crank batch emitted by transfer_chunk_slow_proof is
prefixed with an explicit compute-budget request whose size is given by
requestUnitsFor applied to the operation count of that batch; the requested
value is 1,000,000 budget units for every batch. -/
theorem crank_batch_budget (ctx : Ctx) (transfer : TransferData)
    (gs : List InstructionsAndSignerPubkeys)
    (h : transfer_chunk_slow_proof ctx transfer = .ok gs)
    (g : InstructionsAndSignerPubkeys) (hg : g ∈ gs.drop 2) :
    g.instructions.head?
        = some (Instr.computeBudgetRequest
            (requestUnitsFor (g.instructions.countP isCrank)))
    ∧ requestUnitsFor (g.instructions.countP isCrank) = 1000000 := by
  obtain ⟨pf, scalars, hpf, hsc, hlen, hgs⟩ := tcsp_ok_elim h
  subst hgs
  simp only [List.drop_succ_cons, List.drop_zero] at hg
  exact ⟨crankState_groups_head ctx g hg, rfl⟩

/-- Claim C5: invoking FiniTransfer while the compute buffer cursor has not
reached the total step count fails with NotReady and leaves all persisted
state unchanged; it succeeds only when the cursor equals the total step
count. -/
theorem fini_transfer_not_ready (st : SystemState)
    (h : st.cursor ≠ st.totalSteps) :
    finiTransferRun st = (st, some StealthError.NotReady)
    ∧ ∀ st2 : SystemState, finiTransferRun st ≠ (st2, none) := by
  constructor
  · simp [finiTransferRun, h]
  · intro st2 hcontra
    simp [finiTransferRun, h] at hcontra

/-- Claim C6: transfer_chunk_slow_proof performs all structural validation
before emitting anything: if the proof bytes do not parse, or any derived
scalar fails canonicalization, the function returns an error whose result
contains no instruction at all, in particular no create-account and no
initialize-buffer instruction. -/
theorem validation_before_allocation (ctx : Ctx) (transfer : TransferData) :
    (EqualityProof.from_bytes transfer.equality_proof = none →
      transfer_chunk_slow_proof ctx transfer = .error "malformed equality proof"
      ∧ emittedInstructions (transfer_chunk_slow_proof ctx transfer) = [])
    ∧ (∀ pf, EqualityProof.from_bytes transfer.equality_proof = some pf →
        collectOption canon (rawScalars pf (challengeOf transfer pf)) = none →
        transfer_chunk_slow_proof ctx transfer
            = .error "failed to canonicalise equality proof scalars"
        ∧ emittedInstructions (transfer_chunk_slow_proof ctx transfer) = [])
    ∧ (∀ e, transfer_chunk_slow_proof ctx transfer = .error e →
        (emittedInstructions (transfer_chunk_slow_proof ctx transfer)).countP
            isAllocating = 0) := by
  refine ⟨?_, ?_, ?_⟩
  · intro hnone
    have herr : transfer_chunk_slow_proof ctx transfer
        = .error "malformed equality proof" := by
      simp only [transfer_chunk_slow_proof, hnone]
    exact ⟨herr, by rw [herr]; rfl⟩
  · intro pf hpf hnone
    have herr : transfer_chunk_slow_proof ctx transfer
        = .error "failed to canonicalise equality proof scalars" := by
      simp only [transfer_chunk_slow_proof, hpf, hnone]
    exact ⟨herr, by rw [herr]; rfl⟩
  · intro e herr
    rw [herr]
    rfl

/-- Claim C7: the Fiat-Shamir transcript used by transfer_chunk_slow_proof
absorbs, in fixed order, the source ciphertext chunk, the destination
ciphertext chunk, the two transfer public keys, and then the commitment
points of the proof; only afterwards is the single challenge scalar derived
by the labeled hash-to-scalar step with label c. -/
theorem transcript_absorb_order (transfer : TransferData)
    (pf : EqualityProof) :
    transcriptOf transfer pf
      = TransferProof.transcript_new
          ++ [("src-ct", transfer.src_cipher_key_chunk_ct),
              ("dst-ct", transfer.dst_cipher_key_chunk_ct),
              ("src-pk", transfer.transfer_public_keys.src_pubkey),
              ("dst-pk", transfer.transfer_public_keys.dst_pubkey),
              ("Y_0", pf.Y_0), ("Y_1", pf.Y_1), ("Y_2", pf.Y_2)]
    ∧ challengeOf transfer pf
        = challengeScalar (transcriptOf transfer pf) "c" := by
  constructor
  · simp [transcriptOf, EqualityProof.build_transcript,
      TransferProof.build_transcript]
  · rfl

/-- Claim C8: the write operations produced by populate_transfer_proof_dsl
(contiguous chunks of at most 800 bytes at increasing offsets starting at
the header size, with only the final chunk marked done) cover the DSL byte
string exactly once in order, so applying them to any store yields exactly
the store produced by one single write of the whole byte string at the
header offset. -/
theorem dsl_write_chunks_exact (headerSize : Nat) (rent : Nat → Nat)
    (payer ibuf : Nat) (dsl : Bytes) :
    ((writesOf (populate_transfer_proof_dsl headerSize rent payer ibuf dsl)).map
        (fun w => w.2.2)).flatten = dsl
    ∧ (∀ store : Store,
        applyWrites store
            ((writesOf (populate_transfer_proof_dsl headerSize rent payer ibuf dsl)).map
              (fun w => (w.1, w.2.2)))
          = applyWrite store headerSize dsl)
    ∧ (writesOf (populate_transfer_proof_dsl headerSize rent payer ibuf dsl)).map
          (fun w => w.2.1)
        = List.replicate
            ((writesOf (populate_transfer_proof_dsl headerSize rent payer ibuf dsl)).length
              - 1) false
          ++ [true] := by
  have hsame : writesOf (populate_transfer_proof_dsl headerSize rent payer ibuf dsl)
      = writesOf (writeLoop headerSize payer ibuf dsl 0) := by
    rw [populate_transfer_proof_dsl, writesOf_cons]
    rfl
  rw [hsame]
  refine ⟨?_, ?_, writeLoop_flags headerSize payer ibuf dsl 0⟩
  · have hfl := writeLoop_chunks_flatten headerSize payer ibuf dsl 0
    simpa using hfl
  · intro store
    have hst := writeLoop_store headerSize payer ibuf dsl 0 store
    simpa using hst

/-- Claim C9: the compute buffer created by a successful
transfer_chunk_slow_proof run has length equal to the header size plus
3 proof groups times 4 times 32 bytes, plus 12 times 32 bytes of
decompression scratch, plus 32 bytes per scalar (11 scalars), plus one
lookup table per input point (11 points). -/
theorem compute_buffer_sizing (ctx : Ctx) (transfer : TransferData)
    (gs : List InstructionsAndSignerPubkeys)
    (h : transfer_chunk_slow_proof ctx transfer = .ok gs) :
    (emittedInstructions (transfer_chunk_slow_proof ctx transfer))[1]?
      = some (Instr.createAccount ctx.computeBuffer
          (ctx.rent (ctx.headerSize + 3 * 32 * 4 + 32 * 12 + 32 * 11
            + ctx.tableSize * 11))
          (ctx.headerSize + 3 * 32 * 4 + 32 * 12 + 32 * 11 + ctx.tableSize * 11)
          dalekProgramId) := by
  obtain ⟨pf, scalars, hpf, hsc, hlen, hgs⟩ := tcsp_ok_elim h
  rw [h, hgs]
  rfl

/-- Claim C10: encoding then decoding round-trips: the data produced by
encode_instruction starts with the type tag, decode_instruction_type
recovers the type, and, whenever the Pod payload occupies at least one
byte, decode_instruction_data recovers exactly the payload; moreover
decode_instruction_type rejects the empty input and any first byte that is
not a valid variant tag. -/
theorem encode_decode_roundtrip :
    (∀ (T : Type) (P : PodType T) (accounts : List Nat)
        (t : StealthInstruction) (d : T),
      (encode_instruction P accounts t d).data.head? = some t.toU8
      ∧ decode_instruction_type (encode_instruction P accounts t d).data = .ok t)
    ∧ (∀ (T : Type) (P : PodType T) (accounts : List Nat)
        (t : StealthInstruction) (d : T), 1 ≤ P.size →
      decode_instruction_data P (encode_instruction P accounts t d).data = .ok d)
    ∧ decode_instruction_type [] = .error ProgramError.InvalidInstructionData
    ∧ (∀ (b : Nat) (rest : Bytes), StealthInstruction.fromU8 b = none →
      decode_instruction_type (b :: rest)
        = .error ProgramError.InvalidInstructionData) := by
  refine ⟨?_, ?_, rfl, ?_⟩
  · intro T P accounts t d
    refine ⟨rfl, ?_⟩
    show decode_instruction_type (t.toU8 :: P.toBytes d) = .ok t
    cases t <;> rfl
  · intro T P accounts t d hsize
    have hlen : (encode_instruction P accounts t d).data.length = P.size + 1 := by
      simp [encode_instruction, P.length_toBytes]
    rw [decode_instruction_data, if_neg (by omega)]
    have hdrop : (encode_instruction P accounts t d).data.drop 1 = P.toBytes d := rfl
    rw [hdrop, P.ofBytes_toBytes]
  · intro b rest hnone
    simp [decode_instruction_type, hnone]

/- ------------------------------------------------------------------ -/
/- Witnesses                                                          -/
/- ------------------------------------------------------------------ -/

/-- A concrete context used by the witnesses. -/
def ctx0 : Ctx :=
  { headerSize := 0, tableSize := 0, rent := fun _ => 0,
    payer := 1, instructionBuffer := 2, inputBuffer := 3, computeBuffer := 4 }

/-- A concrete transfer whose proof parses and whose scalars all
canonicalize (all bytes zero). -/
def transfer0 : TransferData :=
  { equality_proof := List.replicate 160 0
    transfer_public_keys := ⟨List.replicate 32 0, List.replicate 32 0⟩
    src_cipher_key_chunk_ct := List.replicate 64 0
    dst_cipher_key_chunk_ct := List.replicate 64 0 }

/-- The groups emitted for transfer0. -/
def groups0 : List InstructionsAndSignerPubkeys :=
  (transfer_chunk_slow_proof ctx0 transfer0).toOption.getD []

deriving instance DecidableEq for Except

set_option maxHeartbeats 2000000 in
set_option maxRecDepth 100000 in
/-- Witness for claim C1 at the concrete context and transfer. -/
theorem crank_plan_partition_witness :
    (groups0.drop 2).map (fun g => g.instructions.countP isCrank)
        = List.replicate 5 16 ++ [22]
            ++ (List.replicate 2 (List.replicate 5 11 ++ [9])).flatten
            ++ List.replicate 8 8
    ∧ ((groups0.drop 2).map (fun g => g.instructions.countP isCrank)).sum
        = DSL_INSTRUCTION_COUNT
    ∧ (groups0.drop 2).length = 26 :=
  crank_plan_partition ctx0 transfer0 groups0 (by decide)

/-- A transfer whose proof parses but whose sh_1 response value (32 bytes of
255, value 2^256 - 1) is not canonical in the scalar field. -/
def transferBad : TransferData :=
  { equality_proof :=
      List.replicate 96 0 ++ List.replicate 32 255 ++ List.replicate 32 0
    transfer_public_keys := ⟨List.replicate 32 0, List.replicate 32 0⟩
    src_cipher_key_chunk_ct := List.replicate 64 0
    dst_cipher_key_chunk_ct := List.replicate 64 0 }

/-- The parsed proof of transferBad. -/
def pfBad : EqualityProof :=
  (EqualityProof.from_bytes transferBad.equality_proof).getD ⟨[], [], [], 0, 0⟩

set_option maxHeartbeats 2000000 in
set_option maxRecDepth 100000 in
/-- Witness for claim C2: the non-canonical sh_1 aborts the whole proof. -/
theorem scalar_canonicalization_aborts_witness :
    transfer_chunk_slow_proof ctx0 transferBad
        = .error "failed to canonicalise equality proof scalars"
    ∧ collectOption canon (rawScalars pfBad (challengeOf transferBad pfBad)) = none
    ∧ emittedInstructions (transfer_chunk_slow_proof ctx0 transferBad) = [] :=
  scalar_canonicalization_aborts ctx0 transferBad pfBad (by decide) (by decide)

/-- The first crank batch group emitted for transfer0. -/
def batch0 : InstructionsAndSignerPubkeys := (groups0.drop 2).getD 0 ⟨[], []⟩

set_option maxHeartbeats 2000000 in
set_option maxRecDepth 100000 in
/-- Witness for claim C4 at the first crank batch of the concrete run. -/
theorem crank_batch_budget_witness :
    batch0.instructions.head?
        = some (Instr.computeBudgetRequest
            (requestUnitsFor (batch0.instructions.countP isCrank)))
    ∧ requestUnitsFor (batch0.instructions.countP isCrank) = 1000000 :=
  crank_batch_budget ctx0 transfer0 groups0 (by decide) batch0 (by decide)

/-- A concrete system state whose cursor (3) is short of the total (294). -/
def state0 : SystemState := ⟨3, 294, [7], [8]⟩

/-- Witness for claim C5 at the concrete unfinished state. -/
theorem fini_transfer_not_ready_witness :
    finiTransferRun state0 = (state0, some StealthError.NotReady)
    ∧ finiTransferRun state0 ≠ (state0, none) :=
  ⟨(fini_transfer_not_ready state0 (by decide)).1,
   (fini_transfer_not_ready state0 (by decide)).2 state0⟩

/-- A transfer whose equality proof bytes cannot parse (empty). -/
def transferEmpty : TransferData := ⟨[], ⟨[], []⟩, [], []⟩

/-- Witness for claim C6: the unparsable proof is rejected before any
instruction is produced. -/
theorem validation_before_allocation_witness :
    transfer_chunk_slow_proof ctx0 transferEmpty
        = .error "malformed equality proof"
    ∧ emittedInstructions (transfer_chunk_slow_proof ctx0 transferEmpty) = [] :=
  (validation_before_allocation ctx0 transferEmpty).1 (by decide)

set_option maxHeartbeats 2000000 in
set_option maxRecDepth 100000 in
/-- Witness for claim C9 at the concrete context and transfer. -/
theorem compute_buffer_sizing_witness :
    (emittedInstructions (transfer_chunk_slow_proof ctx0 transfer0))[1]?
      = some (Instr.createAccount ctx0.computeBuffer
          (ctx0.rent (ctx0.headerSize + 3 * 32 * 4 + 32 * 12 + 32 * 11
            + ctx0.tableSize * 11))
          (ctx0.headerSize + 3 * 32 * 4 + 32 * 12 + 32 * 11
            + ctx0.tableSize * 11)
          dalekProgramId) :=
  compute_buffer_sizing ctx0 transfer0 groups0 (by decide)

/-- A concrete one-byte Pod payload type, used to witness the decoding
claims. -/
def bytePod : PodType (Fin 256) where
  size := 1
  toBytes := fun d => [d.val]
  ofBytes := fun b =>
    match b with
    | [x] => if h : x < 256 then some ⟨x, h⟩ else none
    | _ => none
  length_toBytes := fun d => rfl
  ofBytes_toBytes := fun d => by simp

/-- Witness for claim C10 at a concrete payload and at an invalid tag. -/
theorem encode_decode_roundtrip_witness :
    decode_instruction_data bytePod
        (encode_instruction bytePod [] StealthInstruction.InitTransfer
          (37 : Fin 256)).data
      = .ok (37 : Fin 256)
    ∧ decode_instruction_type [9]
        = .error ProgramError.InvalidInstructionData :=
  ⟨encode_decode_roundtrip.2.1 (Fin 256) bytePod []
      StealthInstruction.InitTransfer 37 (by decide),
   encode_decode_roundtrip.2.2.2 9 [] (by decide)⟩

end Stealth
